import Mathlib

/-!
Verification of the CKEditor 5 utils translation resolution engine.

The definitions below are a shallow embedding of `src/translation-service.js`
(the dictionary store `window.CKEDITOR_TRANSLATIONS`, the `add` registration
function, the `hasTranslation` predicate and the `_translate` resolution
function) and of the interpolation helpers of `src/locale.js`
(`Message.format` and `Message.formatToParts`).

JavaScript objects keyed by strings are embedded as insertion-ordered
association lists; `undefined` results are embedded as `none`; JS truthiness
of dictionary entries (empty string falsy, arrays always truthy) is embedded
explicitly.
-/

namespace CKE

/-- A value stored in a per-language message table: either a single translated
string or an ordered array of plural-variant strings
(`Object.<String, String|Array.<String>>` in the source). -/
inductive Entry where
  | str (s : String)
  | arr (l : List String)
deriving DecidableEq

/-- JavaScript truthiness of a dictionary entry: the empty string is falsy,
every array (even an empty one) is truthy. Used by `hasTranslation`, which
tests `!!window.CKEDITOR_TRANSLATIONS[language].dictionary[messageId]`. -/
def Entry.truthy : Entry → Bool
  | Entry.str s => !(s == "")
  | Entry.arr _ => true

/-- Insertion-ordered association-list lookup, embedding JS property access
`obj[key]` (with `none` for `undefined`). -/
def assocGet {α : Type} : List (String × α) → String → Option α
  | [], _ => none
  | (k, v) :: rest, key => if k = key then some v else assocGet rest key

/-- Setting one property on a JS object: an existing key keeps its position
and gets the new value; a new key is appended at the end. -/
def setKey {α : Type} (d : List (String × α)) (key : String) (v : α) :
    List (String × α) :=
  if (assocGet d key).isSome then
    d.map (fun p => if p.1 = key then (key, v) else p)
  else
    d ++ [(key, v)]

/-- `Object.assign(d, ts)`: copies every property of `ts` onto `d` in order,
overwriting same-named properties and appending new ones. -/
def assignDict {α : Type} (d ts : List (String × α)) : List (String × α) :=
  ts.foldl (fun acc p => setKey acc p.1 p.2) d

/-- The per-language record stored in `window.CKEDITOR_TRANSLATIONS[language]`:
a message dictionary plus an optional plural-form selector function. -/
structure LangRecord where
  dictionary : List (String × Entry)
  getPluralForm : Option (Int → Nat)

/-- The process-wide dictionary store `window.CKEDITOR_TRANSLATIONS`,
a mapping from language code to language record, in insertion order. -/
abbrev TransState := List (String × LangRecord)

/-- `getNumberOfLanguages()`: `Object.keys(window.CKEDITOR_TRANSLATIONS).length`. -/
def getNumberOfLanguages (st : TransState) : Nat := st.length

/-- `add(language, translations, getPluralForm)` from
`src/translation-service.js`: creates the language record if missing,
merge-extends its dictionary with `Object.assign`, and lets a newly supplied
`getPluralForm` win over the stored one
(`languageTranslations.getPluralForm = getPluralForm || languageTranslations.getPluralForm`). -/
def add (st : TransState) (language : String)
    (translations : List (String × Entry)) (getPluralForm : Option (Int → Nat)) :
    TransState :=
  match assocGet st language with
  | some r =>
      st.map (fun p =>
        if p.1 = language then
          (language,
            { dictionary := assignDict r.dictionary translations,
              getPluralForm := getPluralForm.orElse (fun _ => r.getPluralForm) })
        else p)
  | none =>
      st ++ [(language,
        { dictionary := assignDict [] translations,
          getPluralForm := getPluralForm })]

/-- Reading one entry of one language's dictionary (the Dictionary Store
`lookup` operation: `window.CKEDITOR_TRANSLATIONS[language].dictionary[key]`). -/
def lookupT (st : TransState) (language key : String) : Option Entry :=
  match assocGet st language with
  | some r => assocGet r.dictionary key
  | none => none

/-- The structured message passed to `_translate`: the base string, an
optional context and an optional plural fallback form, per the `Message`
typedef of `src/translation-service.js`. -/
structure Message where
  string : String
  context : Option String
  plural : Option String

/-- The effective message id computed in `_translate`:
`message.context ? message.string + '_' + message.context : message.string`
(an empty-string context is falsy in JS, hence treated as absent). -/
def messageIdOf (message : Message) : String :=
  match message.context with
  | some c => if c = "" then message.string else message.string ++ "_" ++ c
  | none => message.string

/-- `hasTranslation(language, messageId)`: the language record exists and the
dictionary entry for the message id is truthy. -/
def hasTranslation (st : TransState) (language messageId : String) : Bool :=
  match assocGet st language with
  | some r =>
      match assocGet r.dictionary messageId with
      | some e => Entry.truthy e
      | none => false
  | none => false

/-- The language actually used by `_translate`: when exactly one language is
registered it overrides the requested one with the sole key of the store
(`Object.keys(window.CKEDITOR_TRANSLATIONS)[0]`). -/
def effectiveLanguage (st : TransState) (language : String) : String :=
  if getNumberOfLanguages st = 1 then
    ((st.head?.map Prod.fst).getD language)
  else language

/-- The default English plural rule `n => n === 1 ? 0 : 1` used when the
language record stores no `getPluralForm`. -/
def englishPluralRule : Int → Nat := fun n => if n = 1 then 0 else 1

/-- `_translate(language, message, amount)` from `src/translation-service.js`:
single-language override, context-derived message id, fallback to the caller
supplied plural/base text when the store is empty or the entry is missing or
falsy, verbatim return of string entries, and plural-index lookup in array
entries (`dictionary[messageId][pluralFormIndex]`, `none` meaning the JS
`undefined` an out-of-range index yields). -/
def _translate (st : TransState) (language : String) (message : Message)
    (amount : Int) : Option String :=
  if getNumberOfLanguages st = 0 ∨
      hasTranslation st (effectiveLanguage st language) (messageIdOf message) = false then
    if amount ≠ 1 then message.plural else some message.string
  else
    match assocGet st (effectiveLanguage st language) with
    | none => none
    | some r =>
        match assocGet r.dictionary (messageIdOf message) with
        | some (Entry.str s) => some s
        | some (Entry.arr l) => l.get? ((r.getPluralForm.getD englishPluralRule) amount)
        | none => none

/-- Numeric value of the digit run of a `%N` placeholder
(`parseInt(index, 10)` on a digits-only capture). -/
def digitsToNat (ds : List Char) : Nat :=
  ds.foldl (fun acc c => acc * 10 + (c.toNat - 48)) 0

/-- JS stringification of the replacement callback result in
`String.prototype.replace`: `values[index]` when present, the string
`"undefined"` when the index is out of range (`String(undefined)`). -/
def jsStringOf : Option String → String
  | some s => s
  | none => "undefined"

/-- The scan of `message.replace(/%(\d+)/g, (match, index) => values[parseInt(index, 10)])`
from `Message.format` in `src/locale.js`: each `%` followed by at least one
digit is replaced by the stringified callback result; a `%` not followed by a
digit is left alone. The fuel argument bounds the recursion by the input
length. -/
def formatAux (values : List String) : Nat → List Char → List Char
  | 0, _ => []
  | _ + 1, [] => []
  | fuel + 1, c :: rest =>
      if c = '%' then
        if (rest.takeWhile Char.isDigit).isEmpty then
          c :: formatAux values fuel rest
        else
          (jsStringOf (values.get? (digitsToNat (rest.takeWhile Char.isDigit)))).data ++
            formatAux values fuel (rest.dropWhile Char.isDigit)
      else c :: formatAux values fuel rest

/-- `Message.format(...values)` from `src/locale.js`. -/
def formatMessage (message : String) (values : List String) : String :=
  String.mk (formatAux values (message.data.length + 1) message.data)

/-- One element of the result of `Message.formatToParts`: a literal text
segment or an interpolated value (`none` embedding the JS `undefined` that an
out-of-range index produces). -/
inductive Part (V : Type) where
  | literal (s : String)
  | value (v : Option V)
deriving DecidableEq

/-- The regex-driven loop of `Message.formatToParts` in `src/locale.js`: the
accumulator holds (reversed) the literal characters seen since the previous
match; at each `%N` match the pending literal and the value part are pushed,
and the trailing literal (possibly empty) is pushed at the end of input. -/
def formatToPartsAux {V : Type} (values : List V) :
    Nat → List Char → List Char → List (Part V)
  | 0, _, _ => []
  | _ + 1, acc, [] => [Part.literal (String.mk acc.reverse)]
  | fuel + 1, acc, c :: rest =>
      if c = '%' then
        if (rest.takeWhile Char.isDigit).isEmpty then
          formatToPartsAux values fuel (c :: acc) rest
        else
          Part.literal (String.mk acc.reverse) ::
          Part.value (values.get? (digitsToNat (rest.takeWhile Char.isDigit))) ::
          formatToPartsAux values fuel [] (rest.dropWhile Char.isDigit)
      else formatToPartsAux values fuel (c :: acc) rest

/-- `Message.formatToParts(...values)` from `src/locale.js`: always returns
the full part sequence; the values are interspersed without stringification. -/
def formatToParts {V : Type} (message : String) (values : List V) : List (Part V) :=
  formatToPartsAux values (message.data.length + 1) [] message.data

/-- The shape every `formatToParts` result has: a literal part first, then
alternating value/literal parts, ending with a literal part. -/
inductive PartsShape {V : Type} : List (Part V) → Prop where
  | last (s : String) : PartsShape [Part.literal s]
  | cons (s : String) (v : Option V) (rest : List (Part V)) :
      PartsShape rest → PartsShape (Part.literal s :: Part.value v :: rest)

/-!
The `PLURAL_FORMS` machinery. The repository variant that understands the
reserved `PLURAL_FORMS` dictionary key (`translatePlural`) is exercised by
`tests/translation-service.js` but its source file is not part of the
sources, so it is modelled from the spec (§4.2 Plural-Form Resolver and
§4.3 resolve): the expression after `plural=` is extracted, checked against
the character whitelist, parsed by a recursive-descent parser over the
whitelisted grammar, and evaluated on the quantity with a boolean result
coerced to 0/1.
-/

/-- Modelled from the spec: the tokens of the whitelisted plural-rule
expression grammar (digits, `n`, parentheses and the operators
`+ - * / ! = < > % & | ? :`). The source implementing this parsing is not
under `src`. -/
inductive PTok where
  | num (n : Nat)
  | varN
  | plus | minus | star | slash | percentT
  | bangT | eqT | neT | ltT | leT | gtT | geT
  | andT | orT | questT | colonT | lparen | rparen
deriving DecidableEq

/-- Modelled from the spec: the binary operators of the plural-rule
expression grammar. -/
inductive PBinOp where
  | addO | subO | mulO | divO | modO
  | eqO | neO | ltO | leO | gtO | geO
  | andO | orO
deriving DecidableEq

/-- Modelled from the spec: the abstract syntax of a plural-rule expression
over the single variable `n`. -/
inductive PExpr where
  | num (n : Nat)
  | varN
  | unNot (a : PExpr)
  | bin (op : PBinOp) (a b : PExpr)
  | cond (c a b : PExpr)
deriving DecidableEq

/-- Coercion of a boolean expression result to 0/1 as the spec requires. -/
def boolToInt (b : Bool) : Int := if b then 1 else 0

/-- Modelled from the spec: evaluation of a plural-rule expression at a
quantity `n`, with comparisons and logical connectives producing 0/1 and
truthiness meaning nonzero. -/
def evalExpr : PExpr → Int → Int
  | PExpr.num k, _ => (k : Int)
  | PExpr.varN, n => n
  | PExpr.unNot a, n => boolToInt (evalExpr a n == 0)
  | PExpr.bin op a b, n =>
      let x := evalExpr a n
      let y := evalExpr b n
      match op with
      | PBinOp.addO => x + y
      | PBinOp.subO => x - y
      | PBinOp.mulO => x * y
      | PBinOp.divO => x / y
      | PBinOp.modO => x % y
      | PBinOp.eqO => boolToInt (x == y)
      | PBinOp.neO => boolToInt (!(x == y))
      | PBinOp.ltO => boolToInt (decide (x < y))
      | PBinOp.leO => boolToInt (decide (x ≤ y))
      | PBinOp.gtO => boolToInt (decide (y < x))
      | PBinOp.geO => boolToInt (decide (y ≤ x))
      | PBinOp.andO => boolToInt (!(x == 0) && !(y == 0))
      | PBinOp.orO => boolToInt (!(x == 0) || !(y == 0))
  | PExpr.cond c a b, n =>
      if evalExpr c n == 0 then evalExpr b n else evalExpr a n

/-- Modelled from the spec: the character whitelist for the expression
portion of a `PLURAL_FORMS` value — digits, whitespace, `n`, parentheses and
the operators `+ - * / ! = < > % & | ? : .`. -/
def pluralCharOk (c : Char) : Bool :=
  c.isDigit || c == ' ' || c == '\t' || c == 'n' || c == '(' || c == ')' ||
  c == '+' || c == '-' || c == '*' || c == '/' || c == '!' || c == '=' ||
  c == '<' || c == '>' || c == '%' || c == '&' || c == '|' || c == '?' ||
  c == ':' || c == '.'

/-- Modelled from the spec: tokenizer for a whitelisted plural-rule
expression; any character outside the grammar makes the whole parse fail
(which later falls back to the default English rule). -/
def tokenizePF : Nat → List Char → Option (List PTok)
  | 0, _ => none
  | _ + 1, [] => some []
  | fuel + 1, '=' :: '=' :: cs => (tokenizePF fuel cs).map (fun ts => PTok.eqT :: ts)
  | fuel + 1, '!' :: '=' :: cs => (tokenizePF fuel cs).map (fun ts => PTok.neT :: ts)
  | fuel + 1, '<' :: '=' :: cs => (tokenizePF fuel cs).map (fun ts => PTok.leT :: ts)
  | fuel + 1, '>' :: '=' :: cs => (tokenizePF fuel cs).map (fun ts => PTok.geT :: ts)
  | fuel + 1, '&' :: '&' :: cs => (tokenizePF fuel cs).map (fun ts => PTok.andT :: ts)
  | fuel + 1, '|' :: '|' :: cs => (tokenizePF fuel cs).map (fun ts => PTok.orT :: ts)
  | fuel + 1, '!' :: cs => (tokenizePF fuel cs).map (fun ts => PTok.bangT :: ts)
  | fuel + 1, '<' :: cs => (tokenizePF fuel cs).map (fun ts => PTok.ltT :: ts)
  | fuel + 1, '>' :: cs => (tokenizePF fuel cs).map (fun ts => PTok.gtT :: ts)
  | fuel + 1, '+' :: cs => (tokenizePF fuel cs).map (fun ts => PTok.plus :: ts)
  | fuel + 1, '-' :: cs => (tokenizePF fuel cs).map (fun ts => PTok.minus :: ts)
  | fuel + 1, '*' :: cs => (tokenizePF fuel cs).map (fun ts => PTok.star :: ts)
  | fuel + 1, '/' :: cs => (tokenizePF fuel cs).map (fun ts => PTok.slash :: ts)
  | fuel + 1, '%' :: cs => (tokenizePF fuel cs).map (fun ts => PTok.percentT :: ts)
  | fuel + 1, '?' :: cs => (tokenizePF fuel cs).map (fun ts => PTok.questT :: ts)
  | fuel + 1, ':' :: cs => (tokenizePF fuel cs).map (fun ts => PTok.colonT :: ts)
  | fuel + 1, '(' :: cs => (tokenizePF fuel cs).map (fun ts => PTok.lparen :: ts)
  | fuel + 1, ')' :: cs => (tokenizePF fuel cs).map (fun ts => PTok.rparen :: ts)
  | fuel + 1, 'n' :: cs => (tokenizePF fuel cs).map (fun ts => PTok.varN :: ts)
  | fuel + 1, ' ' :: cs => tokenizePF fuel cs
  | fuel + 1, '\t' :: cs => tokenizePF fuel cs
  | fuel + 1, c :: cs =>
      if c.isDigit then
        (tokenizePF fuel ((c :: cs).dropWhile Char.isDigit)).map
          (fun ts => PTok.num (digitsToNat ((c :: cs).takeWhile Char.isDigit)) :: ts)
      else none

mutual

/-- Modelled from the spec: ternary conditional level (`c ? a : b`,
right-associative, lowest precedence). -/
def parseTernaryL : Nat → List PTok → Option (PExpr × List PTok)
  | 0, _ => none
  | fuel + 1, toks => do
      let (c, toks1) ← parseOrL fuel toks
      match toks1 with
      | PTok.questT :: toks2 => do
          let (a, toks3) ← parseTernaryL fuel toks2
          match toks3 with
          | PTok.colonT :: toks4 => do
              let (b, toks5) ← parseTernaryL fuel toks4
              pure (PExpr.cond c a b, toks5)
          | _ => none
      | _ => pure (c, toks1)

/-- Modelled from the spec: logical-or level (`||`). -/
def parseOrL : Nat → List PTok → Option (PExpr × List PTok)
  | 0, _ => none
  | fuel + 1, toks => do
      let (a, toks1) ← parseAndL fuel toks
      parseOrR fuel a toks1

/-- Modelled from the spec: left-associative continuation of `||`. -/
def parseOrR : Nat → PExpr → List PTok → Option (PExpr × List PTok)
  | 0, _, _ => none
  | fuel + 1, a, PTok.orT :: toks => do
      let (b, toks1) ← parseAndL fuel toks
      parseOrR fuel (PExpr.bin PBinOp.orO a b) toks1
  | _ + 1, a, toks => pure (a, toks)

/-- Modelled from the spec: logical-and level (`&&`). -/
def parseAndL : Nat → List PTok → Option (PExpr × List PTok)
  | 0, _ => none
  | fuel + 1, toks => do
      let (a, toks1) ← parseEqL fuel toks
      parseAndR fuel a toks1

/-- Modelled from the spec: left-associative continuation of `&&`. -/
def parseAndR : Nat → PExpr → List PTok → Option (PExpr × List PTok)
  | 0, _, _ => none
  | fuel + 1, a, PTok.andT :: toks => do
      let (b, toks1) ← parseEqL fuel toks
      parseAndR fuel (PExpr.bin PBinOp.andO a b) toks1
  | _ + 1, a, toks => pure (a, toks)

/-- Modelled from the spec: equality level (`==`, `!=`). -/
def parseEqL : Nat → List PTok → Option (PExpr × List PTok)
  | 0, _ => none
  | fuel + 1, toks => do
      let (a, toks1) ← parseRelL fuel toks
      parseEqR fuel a toks1

/-- Modelled from the spec: left-associative continuation of `==`/`!=`. -/
def parseEqR : Nat → PExpr → List PTok → Option (PExpr × List PTok)
  | 0, _, _ => none
  | fuel + 1, a, PTok.eqT :: toks => do
      let (b, toks1) ← parseRelL fuel toks
      parseEqR fuel (PExpr.bin PBinOp.eqO a b) toks1
  | fuel + 1, a, PTok.neT :: toks => do
      let (b, toks1) ← parseRelL fuel toks
      parseEqR fuel (PExpr.bin PBinOp.neO a b) toks1
  | _ + 1, a, toks => pure (a, toks)

/-- Modelled from the spec: relational level (`<`, `<=`, `>`, `>=`). -/
def parseRelL : Nat → List PTok → Option (PExpr × List PTok)
  | 0, _ => none
  | fuel + 1, toks => do
      let (a, toks1) ← parseAddL fuel toks
      parseRelR fuel a toks1

/-- Modelled from the spec: left-associative continuation of the relational
operators. -/
def parseRelR : Nat → PExpr → List PTok → Option (PExpr × List PTok)
  | 0, _, _ => none
  | fuel + 1, a, PTok.ltT :: toks => do
      let (b, toks1) ← parseAddL fuel toks
      parseRelR fuel (PExpr.bin PBinOp.ltO a b) toks1
  | fuel + 1, a, PTok.leT :: toks => do
      let (b, toks1) ← parseAddL fuel toks
      parseRelR fuel (PExpr.bin PBinOp.leO a b) toks1
  | fuel + 1, a, PTok.gtT :: toks => do
      let (b, toks1) ← parseAddL fuel toks
      parseRelR fuel (PExpr.bin PBinOp.gtO a b) toks1
  | fuel + 1, a, PTok.geT :: toks => do
      let (b, toks1) ← parseAddL fuel toks
      parseRelR fuel (PExpr.bin PBinOp.geO a b) toks1
  | _ + 1, a, toks => pure (a, toks)

/-- Modelled from the spec: additive level (`+`, `-`). -/
def parseAddL : Nat → List PTok → Option (PExpr × List PTok)
  | 0, _ => none
  | fuel + 1, toks => do
      let (a, toks1) ← parseMulL fuel toks
      parseAddR fuel a toks1

/-- Modelled from the spec: left-associative continuation of `+`/`-`. -/
def parseAddR : Nat → PExpr → List PTok → Option (PExpr × List PTok)
  | 0, _, _ => none
  | fuel + 1, a, PTok.plus :: toks => do
      let (b, toks1) ← parseMulL fuel toks
      parseAddR fuel (PExpr.bin PBinOp.addO a b) toks1
  | fuel + 1, a, PTok.minus :: toks => do
      let (b, toks1) ← parseMulL fuel toks
      parseAddR fuel (PExpr.bin PBinOp.subO a b) toks1
  | _ + 1, a, toks => pure (a, toks)

/-- Modelled from the spec: multiplicative level (`*`, `/`, `%`). -/
def parseMulL : Nat → List PTok → Option (PExpr × List PTok)
  | 0, _ => none
  | fuel + 1, toks => do
      let (a, toks1) ← parseUnaryL fuel toks
      parseMulR fuel a toks1

/-- Modelled from the spec: left-associative continuation of `*`/`/`/`%`. -/
def parseMulR : Nat → PExpr → List PTok → Option (PExpr × List PTok)
  | 0, _, _ => none
  | fuel + 1, a, PTok.star :: toks => do
      let (b, toks1) ← parseUnaryL fuel toks
      parseMulR fuel (PExpr.bin PBinOp.mulO a b) toks1
  | fuel + 1, a, PTok.slash :: toks => do
      let (b, toks1) ← parseUnaryL fuel toks
      parseMulR fuel (PExpr.bin PBinOp.divO a b) toks1
  | fuel + 1, a, PTok.percentT :: toks => do
      let (b, toks1) ← parseUnaryL fuel toks
      parseMulR fuel (PExpr.bin PBinOp.modO a b) toks1
  | _ + 1, a, toks => pure (a, toks)

/-- Modelled from the spec: unary level (`!`, unary minus). -/
def parseUnaryL : Nat → List PTok → Option (PExpr × List PTok)
  | 0, _ => none
  | fuel + 1, PTok.bangT :: toks => do
      let (a, toks1) ← parseUnaryL fuel toks
      pure (PExpr.unNot a, toks1)
  | fuel + 1, PTok.minus :: toks => do
      let (a, toks1) ← parseUnaryL fuel toks
      pure (PExpr.bin PBinOp.subO (PExpr.num 0) a, toks1)
  | fuel + 1, toks => parsePrimaryL fuel toks

/-- Modelled from the spec: primary level — a number literal, the variable
`n`, or a parenthesised expression. -/
def parsePrimaryL : Nat → List PTok → Option (PExpr × List PTok)
  | 0, _ => none
  | _ + 1, PTok.num n :: toks => pure (PExpr.num n, toks)
  | _ + 1, PTok.varN :: toks => pure (PExpr.varN, toks)
  | fuel + 1, PTok.lparen :: toks => do
      let (a, toks1) ← parseTernaryL fuel toks
      match toks1 with
      | PTok.rparen :: toks2 => pure (a, toks2)
      | _ => none
  | _ + 1, _ => none

end

/-- Modelled from the spec: scan for the first occurrence of the marker
`plural=` inside a `PLURAL_FORMS` header value and return the characters
after it. -/
def afterPluralMarker : Nat → List Char → Option (List Char)
  | 0, _ => none
  | _ + 1, [] => none
  | _ + 1, 'p' :: 'l' :: 'u' :: 'r' :: 'a' :: 'l' :: '=' :: cs => some cs
  | fuel + 1, _ :: cs => afterPluralMarker fuel cs

/-- Modelled from the spec: parsing a `PLURAL_FORMS` header value
(`nplurals=<N>;plural=<expr>;`) into a quantity-to-index function: extract
the expression after `plural=` up to the next `;`, enforce the character
whitelist, tokenize and parse it, and evaluate it on `n`; any failure yields
`none` (the caller then falls back to the English default rule). -/
def parsePluralForms (s : String) : Option (Int → Int) := do
  let cs ← afterPluralMarker (s.data.length + 1) s.data
  let expr := cs.takeWhile (fun c => !(c == ';'))
  if expr.all pluralCharOk then
    let toks ← tokenizePF (expr.length + 1) expr
    let (ast, rest) ← parseTernaryL (toks.length * 16 + 16) toks
    if rest.isEmpty then pure (fun n => evalExpr ast n) else none
  else none

/-- Modelled from the spec (§4.2 Plural-Form Resolver): use the language's
explicitly registered selector if any; else derive the rule from the
reserved `PLURAL_FORMS` dictionary key when it parses; else the English
default rule (index 0 iff the quantity is 1). -/
def pluralFormResolver (r : LangRecord) : Int → Nat :=
  match r.getPluralForm with
  | some f => f
  | none =>
      match assocGet r.dictionary "PLURAL_FORMS" with
      | some (Entry.str s) =>
          match parsePluralForms s with
          | some f => fun n => (f n).toNat
          | none => englishPluralRule
      | _ => englishPluralRule

/-- Modelled from the spec (§4.3 resolve): the `translatePlural`-style
resolve operation whose source file is missing from `src` — single-language
override, effective-key lookup, caller-supplied fallback, verbatim string
entries, and plural sequences indexed by the §4.2 resolver with a fallback
to index 0 and then to the caller-supplied text. -/
def resolveSpec (st : TransState) (language : String) (message : Message)
    (quantity : Int) : Option String :=
  let fallback : Option String :=
    match message.plural with
    | some p => if quantity ≠ 1 then some p else some message.string
    | none => some message.string
  if getNumberOfLanguages st = 0 then fallback
  else
    match assocGet st (effectiveLanguage st language) with
    | none => fallback
    | some r =>
        match assocGet r.dictionary (messageIdOf message) with
        | none => fallback
        | some (Entry.str s) => some s
        | some (Entry.arr l) =>
            match l.get? (pluralFormResolver r quantity) with
            | some v => some v
            | none =>
                match l.get? 0 with
                | some v => some v
                | none => fallback

/-! Association-list lemmas about `assocGet`, `setKey` and `add`. -/

theorem setKey_fun_apply {α : Type} (key : String) (v : α) (k1 : String) (v1 : α) :
    (fun p : String × α => if p.1 = key then (key, v) else p) (k1, v1) =
      if k1 = key then (key, v) else (k1, v1) := rfl

theorem assocGet_map_same {α : Type} (key : String) (v : α) :
    ∀ d : List (String × α),
      assocGet (d.map (fun p => if p.1 = key then (key, v) else p)) key =
        if (assocGet d key).isSome then some v else none := by
  intro d
  induction d with
  | nil => simp [assocGet]
  | cons hd tl ih =>
      obtain ⟨k1, v1⟩ := hd
      rw [List.map_cons]
      dsimp only
      by_cases h : k1 = key
      · rw [if_pos h]
        simp [assocGet, h]
      · rw [if_neg h]
        simp [assocGet, h, ih]

theorem assocGet_map_other {α : Type} (key qk : String) (v : α) (hne : key ≠ qk) :
    ∀ d : List (String × α),
      assocGet (d.map (fun p => if p.1 = key then (key, v) else p)) qk =
        assocGet d qk := by
  intro d
  induction d with
  | nil => simp [assocGet]
  | cons hd tl ih =>
      obtain ⟨k1, v1⟩ := hd
      rw [List.map_cons]
      dsimp only
      by_cases h : k1 = key
      · rw [if_pos h]
        simp [assocGet, h, hne, ih]
      · rw [if_neg h]
        simp [assocGet, ih]

theorem assocGet_append {α : Type} (qk : String) :
    ∀ d1 d2 : List (String × α),
      assocGet (d1 ++ d2) qk =
        match assocGet d1 qk with
        | some v => some v
        | none => assocGet d2 qk := by
  intro d1 d2
  induction d1 with
  | nil => simp [assocGet]
  | cons hd tl ih =>
      obtain ⟨k1, v1⟩ := hd
      by_cases h : k1 = qk
      · simp [assocGet, h]
      · simp [assocGet, h, ih]

theorem assocGet_setKey_same {α : Type} (d : List (String × α)) (key : String) (v : α) :
    assocGet (setKey d key v) key = some v := by
  unfold setKey
  by_cases h : (assocGet d key).isSome
  · rw [if_pos h, assocGet_map_same, if_pos h]
  · rw [if_neg h, assocGet_append]
    rw [Option.not_isSome_iff_eq_none] at h
    simp [h, assocGet]

theorem assocGet_setKey_other {α : Type} (d : List (String × α)) (key qk : String)
    (v : α) (hne : key ≠ qk) :
    assocGet (setKey d key v) qk = assocGet d qk := by
  unfold setKey
  by_cases h : (assocGet d key).isSome
  · rw [if_pos h, assocGet_map_other _ _ _ hne]
  · rw [if_neg h, assocGet_append]
    cases hq : assocGet d qk with
    | some w => simp
    | none => simp [assocGet, hne]

theorem assocGet_length_pos {α : Type} {st : List (String × α)} {k : String} {v : α}
    (h : assocGet st k = some v) : st.length ≠ 0 := by
  cases st with
  | nil => simp [assocGet] at h
  | cons hd tl => simp

/-- Looking up any key of a language after a single-binding registration:
the registered key yields the new value, anything else is unchanged. -/
theorem lookupT_add_single (st : TransState) (language k p : String) (v : Entry)
    (sel : Option (Int → Nat)) :
    lookupT (add st language [(p, v)] sel) language k =
      if p = k then some v else lookupT st language k := by
  have hsingle : ∀ d : List (String × Entry), assignDict d [(p, v)] = setKey d p v := by
    intro d; rfl
  unfold add
  cases hl : assocGet st language with
  | some r =>
      unfold lookupT
      rw [assocGet_map_same]
      rw [hl]
      simp only [Option.isSome_some, if_true, hsingle]
      by_cases hpk : p = k
      · rw [hpk, assocGet_setKey_same, if_pos rfl]
      · rw [assocGet_setKey_other _ _ _ _ hpk, if_neg hpk]
  | none =>
      unfold lookupT
      rw [assocGet_append, hl]
      simp only [assocGet, if_pos rfl, hsingle]
      by_cases hpk : p = k
      · rw [hpk]
        show assocGet (setKey [] k v) k = _
        rw [assocGet_setKey_same, if_pos rfl]
      · show assocGet (setKey [] p v) k = _
        rw [assocGet_setKey_other _ _ _ _ hpk, if_neg hpk]
        simp [assocGet]

/-! Claim theorems. -/

/-- C1: when zero languages are registered, or the effective key has no
(truthy) entry for the possibly-overridden language, `_translate` returns the
caller-supplied fallback: the plural fallback when the quantity differs
from 1, else the base (singular) message string. -/
theorem c1_fallback (st : TransState) (language : String) (message : Message)
    (amount : Int)
    (h : getNumberOfLanguages st = 0 ∨
      hasTranslation st (effectiveLanguage st language) (messageIdOf message) = false) :
    _translate st language message amount =
      if amount ≠ 1 then message.plural else some message.string := by
  unfold _translate
  rw [if_pos h]

/-- Witness for C1: resolving `{id: "Bold"}` with quantity 1 against the
empty dictionary returns `"Bold"`. -/
theorem c1_fallback_witness :
    (getNumberOfLanguages ([] : TransState) = 0 ∨
      hasTranslation ([] : TransState)
        (effectiveLanguage ([] : TransState) "pl")
        (messageIdOf { string := "Bold", context := none, plural := none }) = false) ∧
    _translate ([] : TransState) "pl"
      { string := "Bold", context := none, plural := none } 1 = some "Bold" :=
  ⟨Or.inl rfl,
    c1_fallback ([] : TransState) "pl"
      { string := "Bold", context := none, plural := none } 1 (Or.inl rfl)⟩

/-- C2: when exactly one language is registered, `_translate` ignores the
requested language and resolves against the sole registered one; in
particular, after registering only `pl`, resolving `cancel` with requested
language `de` returns the `pl`-registered value. -/
theorem c2_single_language_override (l0 : String) (r : LangRecord)
    (language : String) (message : Message) (amount : Int) :
    _translate [(l0, r)] language message amount =
      _translate [(l0, r)] l0 message amount ∧
    _translate (add [] "pl" [("cancel", Entry.str "Anuluj")] none) "de"
      { string := "cancel", context := none, plural := none } 1 = some "Anuluj" :=
  ⟨rfl, rfl⟩

/-- C4: when the effective language's record stores no explicit plural
selector, `_translate` picks the plural variant with the default English rule:
index 0 when the quantity equals 1, else index 1. -/
theorem c4_default_plural_rule (st : TransState) (language : String)
    (message : Message) (amount : Int) (r : LangRecord) (l : List String)
    (hrec : assocGet st (effectiveLanguage st language) = some r)
    (hsel : r.getPluralForm = none)
    (hentry : assocGet r.dictionary (messageIdOf message) = some (Entry.arr l)) :
    _translate st language message amount =
      l.get? (if amount = 1 then 0 else 1) := by
  have hlen : getNumberOfLanguages st ≠ 0 := assocGet_length_pos hrec
  have htr : hasTranslation st (effectiveLanguage st language) (messageIdOf message) = true := by
    simp [hasTranslation, hrec, hentry, Entry.truthy]
  unfold _translate
  rw [if_neg (by simp [hlen, htr])]
  rw [hrec]
  dsimp only
  rw [hentry, hsel]
  rfl

/-- Witness for C4: with a `de` table whose `bar` entry is a two-variant
array and no registered selector, quantity 3 selects index 1. -/
theorem c4_default_plural_rule_witness :
    _translate
      [("de", { dictionary := [("bar", Entry.arr ["bar0", "bar1"])],
                getPluralForm := none })] "de"
      { string := "bar", context := none, plural := some "# bars" } 3 = some "bar1" :=
  c4_default_plural_rule
    [("de", { dictionary := [("bar", Entry.arr ["bar0", "bar1"])],
              getPluralForm := none })] "de"
    { string := "bar", context := none, plural := some "# bars" } 3
    { dictionary := [("bar", Entry.arr ["bar0", "bar1"])], getPluralForm := none }
    ["bar0", "bar1"] rfl rfl rfl

/-- C5 counterexample: the stored entry for `thing` is the one-element
sequence `["one thing"]`; with quantity 2 the plural index is 1, which is out
of range, and `_translate` returns `none` (the JS `undefined`) instead of
falling back to the element at index 0 as the claim states. -/
theorem c5_counterexample :
    _translate
      [("pl", { dictionary := [("thing", Entry.arr ["one thing"])],
                getPluralForm := none })] "pl"
      { string := "thing", context := none, plural := some "# things" } 2 = none ∧
    (none : Option String) ≠ some "one thing" := by
  constructor
  · rfl
  · intro h
    exact Option.noConfusion h

/-- C5 amended: for a stored plural-variant sequence, `_translate` evaluates
the language's plural selector (the stored one, else the default English
rule) on the quantity and returns the element at that index when it exists;
an out-of-range index yields `none` (the JS `undefined`) — there is no
fallback to index 0 nor to the caller-supplied text — and no exception is
raised in any case (the operation is total). -/
theorem c5_plural_sequence_lookup (st : TransState) (language : String)
    (message : Message) (amount : Int) (r : LangRecord) (l : List String)
    (hrec : assocGet st (effectiveLanguage st language) = some r)
    (hentry : assocGet r.dictionary (messageIdOf message) = some (Entry.arr l)) :
    _translate st language message amount =
      l.get? ((r.getPluralForm.getD englishPluralRule) amount) := by
  have hlen : getNumberOfLanguages st ≠ 0 := assocGet_length_pos hrec
  have htr : hasTranslation st (effectiveLanguage st language) (messageIdOf message) = true := by
    simp [hasTranslation, hrec, hentry, Entry.truthy]
  unfold _translate
  rw [if_neg (by simp [hlen, htr])]
  rw [hrec]
  dsimp only
  rw [hentry]

/-- Witness for C5 amended: the counterexample state evaluated through the
amended theorem: index 1 of a one-element sequence is `none`. -/
theorem c5_plural_sequence_lookup_witness :
    _translate
      [("pl", { dictionary := [("thing", Entry.arr ["one thing"])],
                getPluralForm := none })] "pl"
      { string := "thing", context := none, plural := some "# things" } 2 = none :=
  c5_plural_sequence_lookup
    [("pl", { dictionary := [("thing", Entry.arr ["one thing"])],
              getPluralForm := none })] "pl"
    { string := "thing", context := none, plural := some "# things" } 2
    { dictionary := [("thing", Entry.arr ["one thing"])], getPluralForm := none }
    ["one thing"] rfl rfl

/-- C6: registration merge-extends the message table: registering `{a: x}`
then `{b: y}` leaves both retrievable, keys not mentioned keep their old
value, and re-registering one key overwrites exactly that key. -/
theorem c6_merge_extends (st : TransState) (l a b : String) (x y : Entry)
    (hab : a ≠ b) :
    lookupT (add (add st l [(a, x)] none) l [(b, y)] none) l a = some x ∧
    lookupT (add (add st l [(a, x)] none) l [(b, y)] none) l b = some y ∧
    (∀ k, k ≠ a → k ≠ b →
      lookupT (add (add st l [(a, x)] none) l [(b, y)] none) l k = lookupT st l k) ∧
    (∀ (st2 : TransState) (k : String) (v : Entry),
      lookupT (add st2 l [(k, v)] none) l k = some v ∧
      (∀ k2, k2 ≠ k → lookupT (add st2 l [(k, v)] none) l k2 = lookupT st2 l k2)) := by
  refine ⟨?_, ?_, ?_, ?_⟩
  · rw [lookupT_add_single, lookupT_add_single]
    rw [if_neg (fun h => hab h.symm), if_pos rfl]
  · rw [lookupT_add_single, if_pos rfl]
  · intro k hka hkb
    rw [lookupT_add_single, lookupT_add_single]
    rw [if_neg (fun h => hkb h.symm), if_neg (fun h => hka h.symm)]
  · intro st2 k v
    constructor
    · rw [lookupT_add_single, if_pos rfl]
    · intro k2 hk2
      rw [lookupT_add_single, if_neg (fun h => hk2 h.symm)]

/-- Witness for C6: concrete merge of `{a: x}` then `{b: y}` under `pl`. -/
theorem c6_merge_extends_witness :
    ("a" : String) ≠ "b" ∧
    lookupT (add (add ([] : TransState) "pl" [("a", Entry.str "x")] none)
      "pl" [("b", Entry.str "y")] none) "pl" "a" = some (Entry.str "x") :=
  ⟨by decide,
    (c6_merge_extends ([] : TransState) "pl" "a" "b"
      (Entry.str "x") (Entry.str "y") (by decide)).1⟩

/-- C7 counterexample: for the message `{string: "Cancel", context: "reject"}`
the effective key computed by `_translate` is `"Cancel_reject"`, which is
neither the `"<context>|<id-lowercased>"` form (`"reject|cancel"`) nor the
`"<id> [context: <context>]"` form (`"Cancel [context: reject]"`) stated by
the claim. -/
theorem c7_counterexample :
    messageIdOf { string := "Cancel", context := some "reject", plural := none } =
      "Cancel_reject" ∧
    ("Cancel_reject" : String) ≠ "reject|cancel" ∧
    ("Cancel_reject" : String) ≠ "Cancel [context: reject]" := by
  refine ⟨rfl, by decide, by decide⟩

/-- C7 amended: `_translate` forms the effective key of a context-bearing
message as `<id>_<context>` (for a non-empty context), while a context-free
message is looked up under its bare id, so that the two keys resolve
independently — concretely, with `Cancel_reject` and `Cancel` both
registered under `pl`, resolution with and without context hits the two
distinct entries. -/
theorem c7_context_key (s c : String) (hc : c ≠ "") :
    messageIdOf { string := s, context := some c, plural := none } = s ++ "_" ++ c ∧
    messageIdOf { string := s, context := none, plural := none } = s ∧
    _translate
      (add [] "pl" [("Cancel_reject", Entry.str "AnulujR"),
                    ("Cancel", Entry.str "Anuluj")] none) "pl"
      { string := "Cancel", context := some "reject", plural := none } 1 =
        some "AnulujR" ∧
    _translate
      (add [] "pl" [("Cancel_reject", Entry.str "AnulujR"),
                    ("Cancel", Entry.str "Anuluj")] none) "pl"
      { string := "Cancel", context := none, plural := none } 1 = some "Anuluj" := by
  refine ⟨?_, rfl, rfl, rfl⟩
  simp [messageIdOf, hc]

/-- Witness for C7 amended: the key equations at `"Cancel"`/`"reject"`. -/
theorem c7_context_key_witness :
    ("reject" : String) ≠ "" ∧
    messageIdOf { string := "Cancel", context := some "reject", plural := none } =
      "Cancel" ++ "_" ++ "reject" :=
  ⟨by decide, (c7_context_key "Cancel" "reject" (by decide)).1⟩

/-- C10: a registered translation that is the empty string is falsy, so
`hasTranslation` reports it absent and `_translate` returns the
caller-supplied fallback instead of the stored empty string. -/
theorem c10_falsy_entry_fallback (st : TransState) (language : String)
    (message : Message) (amount : Int) (r : LangRecord)
    (hrec : assocGet st (effectiveLanguage st language) = some r)
    (hentry : assocGet r.dictionary (messageIdOf message) = some (Entry.str "")) :
    hasTranslation st (effectiveLanguage st language) (messageIdOf message) = false ∧
    _translate st language message amount =
      if amount ≠ 1 then message.plural else some message.string := by
  have htr : hasTranslation st (effectiveLanguage st language) (messageIdOf message) = false := by
    simp [hasTranslation, hrec, hentry, Entry.truthy]
  refine ⟨htr, ?_⟩
  unfold _translate
  rw [if_pos (Or.inr htr)]

/-- Helper: dropping a prefix never lengthens a list. -/
theorem dropWhile_length_le (p : Char → Bool) :
    ∀ l : List Char, (l.dropWhile p).length ≤ l.length := by
  intro l
  induction l with
  | nil => simp
  | cons c rest ih =>
      rw [List.dropWhile]
      cases p c with
      | true => exact Nat.le_succ_of_le ih
      | false => simp

/-- Helper: every run of the `formatToParts` loop with enough fuel produces
the alternating literal/value shape ending in a literal. -/
theorem formatToPartsAux_shape {V : Type} (values : List V) :
    ∀ (fuel : Nat) (acc cs : List Char), cs.length < fuel →
      PartsShape (formatToPartsAux values fuel acc cs) := by
  intro fuel
  induction fuel with
  | zero => intro acc cs h; exact absurd h (Nat.not_lt_zero _)
  | succ fuel ih =>
      intro acc cs h
      match cs with
      | [] => exact PartsShape.last _
      | c :: rest =>
          rw [formatToPartsAux]
          have hrest : rest.length < fuel := by
            simpa [Nat.succ_lt_succ_iff] using h
          by_cases hc : c = '%'
          · rw [if_pos hc]
            by_cases hd : (rest.takeWhile Char.isDigit).isEmpty
            · rw [if_pos hd]
              exact ih _ _ hrest
            · rw [if_neg hd]
              refine PartsShape.cons _ _ _ (ih _ _ ?_)
              exact Nat.lt_of_le_of_lt (dropWhile_length_le _ _) hrest
          · rw [if_neg hc]
            exact ih _ _ hrest

/-- C8 (code evaluation): `Message.format` replaces in-range `%N` tokens with
the corresponding values, but an out-of-range token is replaced by the string
`"undefined"` (the stringified JS `undefined` returned by the replacement
callback), not left unchanged as the claim and the repository's own tests
(`tests/locale.js`, `t( '%1 - %0 - %2', [ 'a' ] )`) expect. -/
theorem c8_format_out_of_range :
    formatMessage "Created file \"%0\" in %1ms" ["a.txt", "12"] =
      "Created file \"a.txt\" in 12ms" ∧
    formatMessage "%1 - %0 - %2" ["a"] = "undefined - a - undefined" ∧
    formatMessage "%5" ["a.txt", "12"] = "undefined" ∧
    ("undefined" : String) ≠ "%5" :=
  ⟨rfl, rfl, rfl, by decide⟩

/-- C9 counterexample: with only primitive (string) values supplied,
`formatToParts` still returns the full part sequence; it does not join the
parts into the single string `"Replace foo with bar"`. -/
theorem c9_counterexample :
    formatToParts "Replace %0 with %1" ["foo", "bar"] =
      [Part.literal "Replace ", Part.value (some "foo"), Part.literal " with ",
       Part.value (some "bar"), Part.literal ""] ∧
    formatToParts "Replace %0 with %1" ["foo", "bar"] ≠
      [Part.literal "Replace foo with bar"] :=
  ⟨rfl, by decide⟩

/-- C9 amended: `formatToParts` splits the template into alternating
literal-text and value segments at each placeholder token and always returns
the full part sequence, preserving the original value identities (for values
of an arbitrary type, with no stringification); no joining into a single
string occurs, whether or not the values are primitive. -/
theorem c9_parts_always (V : Type) (values : List V) (message : String) :
    PartsShape (formatToParts message values) ∧
    (∀ v0 v1 : V,
      formatToParts "Replace %0 with %1" [v0, v1] =
        [Part.literal "Replace ", Part.value (some v0), Part.literal " with ",
         Part.value (some v1), Part.literal ""]) := by
  constructor
  · exact formatToPartsAux_shape values _ [] message.data (Nat.lt_succ_self _)
  · intro v0 v1
    rfl

/-- C3: after registering language `pl` with
`PLURAL_FORMS = "nplurals=3;plural=n==1?0:n<=4?1:2;"` and the table entry
`table: ["tabelka", "# tabelki", "# tabelek"]`, the spec-modelled resolve
derives the plural rule from the parsed whitelisted expression and returns
`"tabelka"` for quantity 1, `"# tabelki"` for quantity 3 and `"# tabelek"`
for quantity 7. -/
theorem c3_plural_forms_rule :
    resolveSpec
      (add [] "pl"
        [("PLURAL_FORMS", Entry.str "nplurals=3;plural=n==1?0:n<=4?1:2;"),
         ("table", Entry.arr ["tabelka", "# tabelki", "# tabelek"])] none)
      "pl" { string := "table", context := none, plural := some "# tables" } 1 =
        some "tabelka" ∧
    resolveSpec
      (add [] "pl"
        [("PLURAL_FORMS", Entry.str "nplurals=3;plural=n==1?0:n<=4?1:2;"),
         ("table", Entry.arr ["tabelka", "# tabelki", "# tabelek"])] none)
      "pl" { string := "table", context := none, plural := some "# tables" } 3 =
        some "# tabelki" ∧
    resolveSpec
      (add [] "pl"
        [("PLURAL_FORMS", Entry.str "nplurals=3;plural=n==1?0:n<=4?1:2;"),
         ("table", Entry.arr ["tabelka", "# tabelki", "# tabelek"])] none)
      "pl" { string := "table", context := none, plural := some "# tables" } 7 =
        some "# tabelek" :=
  ⟨rfl, rfl, rfl⟩

/-- Witness for C10: a `pl` dictionary mapping `Bold` to the empty string;
quantity 1 resolves to the base text `"Bold"`, not `""`. -/
theorem c10_falsy_entry_fallback_witness :
    hasTranslation
      [("pl", { dictionary := [("Bold", Entry.str "")], getPluralForm := none })]
      (effectiveLanguage
        [("pl", { dictionary := [("Bold", Entry.str "")], getPluralForm := none })] "pl")
      (messageIdOf { string := "Bold", context := none, plural := none }) = false ∧
    _translate
      [("pl", { dictionary := [("Bold", Entry.str "")], getPluralForm := none })]
      "pl" { string := "Bold", context := none, plural := none } 1 = some "Bold" := by
  have h := c10_falsy_entry_fallback
    [("pl", { dictionary := [("Bold", Entry.str "")], getPluralForm := none })]
    "pl" { string := "Bold", context := none, plural := none } 1
    { dictionary := [("Bold", Entry.str "")], getPluralForm := none } rfl rfl
  exact ⟨h.1, h.2⟩

end CKE
